import Mathlib

/-!
Verification of the tool-augmented conversational loop implemented in
`agent/weather_time_agent.py` (class `WeatherTimeAgent`).

The embedding below translates the two functions with actual logic:

* `_execute_tool` (lines 122-177): dispatch by tool name over the three
  tools `get_weather`, `get_time`, `calculator`, with a `try/except` that
  converts every exception (unknown tool, missing argument, tool-body
  failure) into an error dictionary.

* `run` (lines 180-308): the agentic loop.  It seeds the conversation
  with a single user message, then repeatedly calls the Bedrock
  `converse` API; on stop reason `end_turn` it returns the concatenated
  text blocks; on `tool_use` it appends the assistant message, executes
  each `toolUse` block in order, appends all results as one user
  message, and loops; on any other stop reason it returns the formatted
  string `Unexpected stop reason: {stop_reason}`; a `ClientError` from
  the API is re-raised; when `iteration < max_iterations` first fails
  the loop exits and raises `RuntimeError`.

Python values flowing through tool inputs and results are modelled by
`PyVal` (numeric payloads are modelled as integers; nothing in the loop
inspects numbers).  The three concrete tool bodies live outside the
loop (they may raise arbitrary exceptions), so they are modelled as an
abstract environment `ToolEnv` of functions returning `Except String
PyVal`, where `Except.error e` stands for a raised exception whose
`str` is `e`.  The remote model is an oracle `gw : Nat → GatewayReply`
giving the reply to the n-th `converse` call (0-indexed); since the
loop is deterministic between calls, this is fully general.

The loop is translated with `fuel = max_iterations - iteration`
(`iteration` starts at 0 and increases by exactly 1 per loop entry, so
the Python guard `iteration < max_iterations` holds exactly `fuel`
times, with `fuel = max_iterations.toNat` initially; `max_iterations`
is kept as `Int` because Python allows a non-positive argument).  The
returned `RunTrace` carries, besides the outcome, ghost observations:
the number of `converse` calls made, the number of `_execute_tool`
invocations, the final message list, and the snapshot of the message
list at each `converse` call.
-/

/-- A Python value, as used for tool inputs and tool results. -/
inductive PyVal where
  | vstr (s : String)
  | vint (n : Int)
  | vnone
  | vdict (entries : List (String × PyVal))
deriving Repr

/-- `d[k]` on a Python dict: the value, or a raised `KeyError` whose
`str` is the quoted key. -/
def dictGet (d : List (String × PyVal)) (k : String) : Except String PyVal :=
  match d.find? (fun p => p.1 == k) with
  | some p => Except.ok p.2
  | none => Except.error ("\x27" ++ k ++ "\x27")

/-- `d.get(k)` on a Python dict: the value, or `None` when absent. -/
def dictGetOpt (d : List (String × PyVal)) (k : String) : PyVal :=
  match d.find? (fun p => p.1 == k) with
  | some p => p.2
  | none => PyVal.vnone

/-- The three tool bodies (`tools.get_weather`, `tools.get_time`,
`tools.calculator`).  Their implementations are external to the loop;
each is an arbitrary function that either returns a value or raises an
exception (`Except.error` carries `str(e)`). -/
structure ToolEnv where
  get_weather : PyVal → Except String PyVal
  get_time : PyVal → Except String PyVal
  calculator : PyVal → PyVal → PyVal → Except String PyVal

/-- The body of the `try` block of `_execute_tool` (lines 149-169):
dispatch on the tool name, extracting arguments from `tool_input`
(a missing key raises `KeyError`), and raising
`ValueError(f"Unknown tool: {tool_name}")` for an unknown name. -/
def executeToolBody (env : ToolEnv) (tool_name : String)
    (tool_input : List (String × PyVal)) : Except String PyVal :=
  if tool_name = "get_weather" then
    match dictGet tool_input "city" with
    | Except.error e => Except.error e
    | Except.ok city => env.get_weather city
  else if tool_name = "get_time" then
    match dictGet tool_input "timezone" with
    | Except.error e => Except.error e
    | Except.ok tz => env.get_time tz
  else if tool_name = "calculator" then
    match dictGet tool_input "operation" with
    | Except.error e => Except.error e
    | Except.ok operation =>
      match dictGet tool_input "a" with
      | Except.error e => Except.error e
      | Except.ok a => env.calculator operation a (dictGetOpt tool_input "b")
  else
    Except.error ("Unknown tool: " ++ tool_name)

/-- `_execute_tool` (lines 122-177): run the body; any exception is
caught and converted into the error dictionary
`{"error": str(e), "tool_name": tool_name, "tool_input": tool_input}`. -/
def execute_tool (env : ToolEnv) (tool_name : String)
    (tool_input : List (String × PyVal)) : PyVal :=
  match executeToolBody env tool_name tool_input with
  | Except.ok result => result
  | Except.error e =>
      PyVal.vdict
        [("error", PyVal.vstr e),
         ("tool_name", PyVal.vstr tool_name),
         ("tool_input", PyVal.vdict tool_input)]

/-- `json.dumps` on a `PyVal` (string escaping elided; the serialized
text is never inspected by the loop). -/
def dumps : PyVal → String
  | PyVal.vstr s => "\x22" ++ s ++ "\x22"
  | PyVal.vint n => toString n
  | PyVal.vnone => "null"
  | PyVal.vdict entries => "\x7b" ++ dumpsEntries entries ++ "\x7d"
where
  /-- Serialize dict entries with the default separators. -/
  dumpsEntries : List (String × PyVal) → String
  | [] => ""
  | [(k, v)] => "\x22" ++ k ++ "\x22: " ++ dumps v
  | (k, v) :: rest => "\x22" ++ k ++ "\x22: " ++ dumps v ++ ", " ++ dumpsEntries rest

/-- A content block of a Converse-API message: a text block
`{"text": s}`, a tool request `{"toolUse": {...}}`, a tool result
`{"toolResult": {"toolUseId": id, "content": [{"text": t}]}}`, or any
other block shape (skipped by every loop that inspects blocks). -/
inductive ContentBlock where
  | text (s : String)
  | toolUse (toolUseId : String) (name : String) (input : List (String × PyVal))
  | toolResult (toolUseId : String) (contentText : String)
  | other
deriving Repr

/-- A Converse-API message: `{"role": role, "content": blocks}`. -/
structure Message where
  role : String
  content : List ContentBlock
deriving Repr

/-- The reply of one `bedrock.converse` call: either a response with
its `stopReason` (`response.get("stopReason")`, hence optional) and
`response["output"]["message"]["content"]`, or a raised
`botocore.ClientError` with its code and message. -/
inductive GatewayReply where
  | resp (stopReason : Option String) (content : List ContentBlock)
  | clientError (code : String) (message : String)

/-- How `run` ends: a normal `return` of a string, a re-raised
`ClientError`, or a raised `RuntimeError`. -/
inductive RunResult where
  | returns (text : String)
  | raisesClientError (code : String) (message : String)
  | raisesRuntimeError (message : String)
deriving Repr, DecidableEq

/-- Result of a run plus ghost observations of its execution. -/
structure RunTrace where
  result : RunResult
  /-- number of `bedrock.converse` calls made -/
  modelCalls : Nat
  /-- number of `_execute_tool` invocations made -/
  toolCalls : Nat
  /-- the final value of `messages` -/
  messages : List Message
  /-- the value of `messages` at each `converse` call, in call order -/
  snapshots : List (List Message)

/-- Lines 245-248: concatenate the `text` fields of the text blocks of
the assistant content. -/
def finalText : List ContentBlock → String
  | [] => ""
  | ContentBlock.text s :: rest => s ++ finalText rest
  | _ :: rest => finalText rest

/-- The `toolUse` blocks of an assistant content, in order, as
(toolUseId, name, input) triples (the loop of lines 263-286 visits
exactly these). -/
def toolUses : List ContentBlock → List (String × String × List (String × PyVal))
  | [] => []
  | ContentBlock.toolUse id name input :: rest => (id, name, input) :: toolUses rest
  | _ :: rest => toolUses rest

/-- Lines 261-286: the `tool_results` list built for one `tool_use`
turn — one `toolResult` block per `toolUse` block, in order, carrying
that request's `toolUseId` and the serialized `_execute_tool` result. -/
def toolResultsFor (env : ToolEnv) : List ContentBlock → List ContentBlock
  | [] => []
  | ContentBlock.toolUse id name input :: rest =>
      ContentBlock.toolResult id (dumps (execute_tool env name input))
        :: toolResultsFor env rest
  | _ :: rest => toolResultsFor env rest

/-- Lines 254-292: the two messages a `tool_use` turn appends — the
assistant message carrying the requests, then the user message
carrying all the results. -/
def toolTurnMessages (env : ToolEnv) (messages : List Message)
    (assistant_content : List ContentBlock) : List Message :=
  messages ++
    [Message.mk "assistant" assistant_content,
     Message.mk "user" (toolResultsFor env assistant_content)]

/-- The f-string rendering of `stop_reason` (an `Option String`) in
`f"Unexpected stop reason: {stop_reason}"`. -/
def stopReasonStr : Option String → String
  | none => "None"
  | some s => s

/-- The `while iteration < max_iterations` loop of `run`
(lines 214-308), with `fuel = max_iterations - iteration`.  Each loop
entry makes one `converse` call (`gw calls`) and dispatches on the
reply exactly as lines 236-303; fuel 0 is the loop exit, which raises
`RuntimeError(f"Max iterations ({max_iterations}) exceeded")`
(lines 305-308). -/
def runAux (env : ToolEnv) (gw : Nat → GatewayReply) (max_iterations : Int)
    (messages : List Message) (fuel : Nat) (calls tools : Nat)
    (snaps : List (List Message)) : RunTrace :=
  match fuel with
  | 0 =>
      ⟨RunResult.raisesRuntimeError
          ("Max iterations (" ++ toString max_iterations ++ ") exceeded"),
        calls, tools, messages, snaps⟩
  | fuel' + 1 =>
      match gw calls with
      | GatewayReply.clientError code msg =>
          ⟨RunResult.raisesClientError code msg,
            calls + 1, tools, messages, snaps ++ [messages]⟩
      | GatewayReply.resp stopReason content =>
          if stopReason = some "end_turn" then
            ⟨RunResult.returns (finalText content),
              calls + 1, tools, messages, snaps ++ [messages]⟩
          else if stopReason = some "tool_use" then
            runAux env gw max_iterations
              (toolTurnMessages env messages content) fuel'
              (calls + 1) (tools + (toolUses content).length)
              (snaps ++ [messages])
          else
            ⟨RunResult.returns
                ("Unexpected stop reason: " ++ stopReasonStr stopReason),
              calls + 1, tools, messages, snaps ++ [messages]⟩

/-- `run` (lines 180-308): seed `messages` with the single user
message carrying the query, set `iteration = 0`, and enter the loop. -/
def run (env : ToolEnv) (gw : Nat → GatewayReply) (query : String)
    (max_iterations : Int) : RunTrace :=
  runAux env gw max_iterations
    [Message.mk "user" [ContentBlock.text query]]
    max_iterations.toNat 0 0 []

/-- The `toolUseId`s carried by the `toolResult` blocks of a content
list, in order. -/
def resultIds : List ContentBlock → List String
  | [] => []
  | ContentBlock.toolResult id _ :: rest => id :: resultIds rest
  | _ :: rest => resultIds rest

/-- The roles of a message list follow the pattern
user, assistant, user, assistant, ..., user (nonempty, user at both
ends, strict alternation) — the shape of every snapshot the loop sends
to `converse`. -/
def userAssistAlt : List Message → Bool
  | [] => false
  | [m] => m.role == "user"
  | m1 :: m2 :: rest =>
      m1.role == "user" && m2.role == "assistant" && userAssistAlt rest

/-- One `tool_use` turn of the loop: the later message list extends
the earlier one by exactly the assistant message carrying the requests
and the user message bundling that turn's tool results. -/
def TurnStep (env : ToolEnv) (a b : List Message) : Prop :=
  ∃ c, b = a ++ [Message.mk "assistant" c, Message.mk "user" (toolResultsFor env c)]

/-! ### Concrete fixtures (used to instantiate the theorems below) -/

/-- A tool environment in which every tool body raises. -/
def envFailing : ToolEnv :=
  ⟨fun _ => Except.error "weather backend down",
   fun _ => Except.error "time backend down",
   fun _ _ _ => Except.error "calculator backend down"⟩

/-- A tool environment in which every tool body succeeds. -/
def envOk : ToolEnv :=
  ⟨fun city => Except.ok (PyVal.vdict [("city", city), ("temperature", PyVal.vint 72)]),
   fun tz => Except.ok (PyVal.vdict [("timezone", tz), ("hour", PyVal.vint 12)]),
   fun _ a _ => Except.ok a⟩

/-- A well-formed weather tool request. -/
def sampleToolUse : ContentBlock :=
  ContentBlock.toolUse "tu-1" "get_weather" [("city", PyVal.vstr "Seattle")]

/-- A model that immediately answers with the text X. -/
def gwFinal : Nat → GatewayReply :=
  fun _ => GatewayReply.resp (some "end_turn") [ContentBlock.text "X"]

/-- A model that requests one tool, then answers. -/
def gwOneToolThenFinal : Nat → GatewayReply :=
  fun n =>
    if n = 0 then GatewayReply.resp (some "tool_use") [sampleToolUse]
    else GatewayReply.resp (some "end_turn") [ContentBlock.text "done"]

/-- A model that requests a tool on every call. -/
def gwAllTools : Nat → GatewayReply :=
  fun _ => GatewayReply.resp (some "tool_use") [sampleToolUse]

/-- A `converse` call that raises a `ClientError` at once. -/
def gwClientFail : Nat → GatewayReply :=
  fun _ => GatewayReply.clientError "ThrottlingException" "Rate exceeded"

/-- A model that stops with the unhandled reason `max_tokens`. -/
def gwUnexpectedStop : Nat → GatewayReply :=
  fun _ => GatewayReply.resp (some "max_tokens") [ContentBlock.text "partial"]

/-- A model that authors, as a normal final answer, exactly the text
the loop produces for an unexpected stop reason. -/
def gwMimicUnexpected : Nat → GatewayReply :=
  fun _ =>
    GatewayReply.resp (some "end_turn")
      [ContentBlock.text "Unexpected stop reason: max_tokens"]

/-- A model that stops with `tool_use` but supplies no `toolUse`
block. -/
def gwEmptyToolUse : Nat → GatewayReply :=
  fun _ => GatewayReply.resp (some "tool_use") []

/-! ### Step equations of the loop -/

/-- Fuel 0 (loop exit): `RuntimeError` is raised, nothing else happens. -/
lemma runAux_exit (env : ToolEnv) (gw : Nat → GatewayReply) (mi : Int)
    (msgs : List Message) (calls tools : Nat) (snaps : List (List Message)) :
    runAux env gw mi msgs 0 calls tools snaps =
      ⟨RunResult.raisesRuntimeError
          ("Max iterations (" ++ toString mi ++ ") exceeded"),
        calls, tools, msgs, snaps⟩ := rfl

/-- A `ClientError` from `converse` is re-raised at once. -/
lemma runAux_client_step (env : ToolEnv) (gw : Nat → GatewayReply) (mi : Int)
    (msgs : List Message) (fuel calls tools : Nat) (snaps : List (List Message))
    (code msg : String) (h : gw calls = GatewayReply.clientError code msg) :
    runAux env gw mi msgs (fuel + 1) calls tools snaps =
      ⟨RunResult.raisesClientError code msg,
        calls + 1, tools, msgs, snaps ++ [msgs]⟩ := by
  simp [runAux, h]

/-- Stop reason `end_turn`: return the concatenated text blocks. -/
lemma runAux_final_step (env : ToolEnv) (gw : Nat → GatewayReply) (mi : Int)
    (msgs : List Message) (fuel calls tools : Nat) (snaps : List (List Message))
    (content : List ContentBlock)
    (h : gw calls = GatewayReply.resp (some "end_turn") content) :
    runAux env gw mi msgs (fuel + 1) calls tools snaps =
      ⟨RunResult.returns (finalText content),
        calls + 1, tools, msgs, snaps ++ [msgs]⟩ := by
  simp [runAux, h]

/-- Stop reason `tool_use`: append the assistant message and the
bundled tool results, then loop. -/
lemma runAux_tool_step (env : ToolEnv) (gw : Nat → GatewayReply) (mi : Int)
    (msgs : List Message) (fuel calls tools : Nat) (snaps : List (List Message))
    (content : List ContentBlock)
    (h : gw calls = GatewayReply.resp (some "tool_use") content) :
    runAux env gw mi msgs (fuel + 1) calls tools snaps =
      runAux env gw mi (toolTurnMessages env msgs content) fuel
        (calls + 1) (tools + (toolUses content).length) (snaps ++ [msgs]) := by
  simp [runAux, h]

/-- Any other stop reason: return the formatted string. -/
lemma runAux_other_step (env : ToolEnv) (gw : Nat → GatewayReply) (mi : Int)
    (msgs : List Message) (fuel calls tools : Nat) (snaps : List (List Message))
    (stop : Option String) (content : List ContentBlock)
    (h : gw calls = GatewayReply.resp stop content)
    (h1 : stop ≠ some "end_turn") (h2 : stop ≠ some "tool_use") :
    runAux env gw mi msgs (fuel + 1) calls tools snaps =
      ⟨RunResult.returns ("Unexpected stop reason: " ++ stopReasonStr stop),
        calls + 1, tools, msgs, snaps ++ [msgs]⟩ := by
  simp [runAux, h, h1, h2]

/-! ### Call-count bounds -/

/-- The loop never forgets calls already made. -/
lemma runAux_calls_le (env : ToolEnv) (gw : Nat → GatewayReply) (mi : Int) :
    ∀ (fuel : Nat) (msgs : List Message) (calls tools : Nat)
      (snaps : List (List Message)),
    calls ≤ (runAux env gw mi msgs fuel calls tools snaps).modelCalls := by
  intro fuel
  induction fuel with
  | zero => intro msgs calls tools snaps; simp [runAux]
  | succ fuel ih =>
    intro msgs calls tools snaps
    cases h : gw calls with
    | clientError code msg => simp [runAux_client_step env gw mi msgs fuel calls tools snaps code msg h]
    | resp stop content =>
      by_cases h1 : stop = some "end_turn"
      · subst h1
        simp [runAux_final_step env gw mi msgs fuel calls tools snaps content h]
      · by_cases h2 : stop = some "tool_use"
        · subst h2
          rw [runAux_tool_step env gw mi msgs fuel calls tools snaps content h]
          exact le_trans (Nat.le_succ calls) (ih _ _ _ _)
        · simp [runAux_other_step env gw mi msgs fuel calls tools snaps stop content h h1 h2]

/-- With fuel remaining, the loop makes at least one more call. -/
lemma runAux_calls_succ_le (env : ToolEnv) (gw : Nat → GatewayReply) (mi : Int)
    (msgs : List Message) (fuel calls tools : Nat) (snaps : List (List Message)) :
    calls + 1 ≤ (runAux env gw mi msgs (fuel + 1) calls tools snaps).modelCalls := by
  cases h : gw calls with
  | clientError code msg =>
    simp [runAux_client_step env gw mi msgs fuel calls tools snaps code msg h]
  | resp stop content =>
    by_cases h1 : stop = some "end_turn"
    · subst h1
      simp [runAux_final_step env gw mi msgs fuel calls tools snaps content h]
    · by_cases h2 : stop = some "tool_use"
      · subst h2
        rw [runAux_tool_step env gw mi msgs fuel calls tools snaps content h]
        exact runAux_calls_le env gw mi fuel _ (calls + 1) _ _
      · simp [runAux_other_step env gw mi msgs fuel calls tools snaps stop content h h1 h2]

/-! ### Shape lemmas for whole runs -/

/-- If the next `k` replies are `tool_use` and the one after is
`end_turn`, the loop returns that final text after exactly `k + 1`
further calls. -/
lemma runAux_tools_then_final (env : ToolEnv) (gw : Nat → GatewayReply) (mi : Int) :
    ∀ (k fuel : Nat) (msgs : List Message) (calls tools : Nat)
      (snaps : List (List Message)) (c : List ContentBlock),
    (∀ i, i < k → ∃ blocks, gw (calls + i) = GatewayReply.resp (some "tool_use") blocks) →
    gw (calls + k) = GatewayReply.resp (some "end_turn") c →
    k < fuel →
    (runAux env gw mi msgs fuel calls tools snaps).result
        = RunResult.returns (finalText c) ∧
    (runAux env gw mi msgs fuel calls tools snaps).modelCalls = calls + k + 1 := by
  intro k
  induction k with
  | zero =>
    intro fuel msgs calls tools snaps c _ hfin hlt
    obtain ⟨fuel', rfl⟩ : ∃ f, fuel = f + 1 := ⟨fuel - 1, by omega⟩
    rw [runAux_final_step env gw mi msgs fuel' calls tools snaps c (by simpa using hfin)]
    exact ⟨rfl, rfl⟩
  | succ k ih =>
    intro fuel msgs calls tools snaps c htools hfin hlt
    obtain ⟨fuel', rfl⟩ : ∃ f, fuel = f + 1 := ⟨fuel - 1, by omega⟩
    obtain ⟨blocks, hb⟩ := htools 0 (Nat.succ_pos k)
    rw [runAux_tool_step env gw mi msgs fuel' calls tools snaps blocks (by simpa using hb)]
    have hres := ih fuel' (toolTurnMessages env msgs blocks) (calls + 1)
      (tools + (toolUses blocks).length) (snaps ++ [msgs]) c
      (fun i hi => by
        have := htools (i + 1) (by omega)
        simpa [Nat.add_assoc, Nat.add_comm 1 i] using this)
      (by
        have : calls + 1 + k = calls + (k + 1) := by omega
        rw [this]; exact hfin)
      (by omega)
    exact ⟨hres.1, by omega⟩

/-- If every reply is `tool_use`, the loop burns all its fuel, making
one call per unit, and raises the max-iterations `RuntimeError`. -/
lemma runAux_all_tools (env : ToolEnv) (gw : Nat → GatewayReply) (mi : Int)
    (halltools : ∀ i, ∃ blocks, gw i = GatewayReply.resp (some "tool_use") blocks) :
    ∀ (fuel : Nat) (msgs : List Message) (calls tools : Nat)
      (snaps : List (List Message)),
    (runAux env gw mi msgs fuel calls tools snaps).result
        = RunResult.raisesRuntimeError
            ("Max iterations (" ++ toString mi ++ ") exceeded") ∧
    (runAux env gw mi msgs fuel calls tools snaps).modelCalls = calls + fuel := by
  intro fuel
  induction fuel with
  | zero => intro msgs calls tools snaps; exact ⟨rfl, rfl⟩
  | succ fuel ih =>
    intro msgs calls tools snaps
    obtain ⟨blocks, hb⟩ := halltools calls
    rw [runAux_tool_step env gw mi msgs fuel calls tools snaps blocks hb]
    have hres := ih (toolTurnMessages env msgs blocks) (calls + 1)
      (tools + (toolUses blocks).length) (snaps ++ [msgs])
    exact ⟨hres.1, by omega⟩

/-- Skipping past `k` consecutive `tool_use` replies: the loop reaches
call number `calls + k` with `k` fewer units of fuel. -/
lemma runAux_tools_skip (env : ToolEnv) (gw : Nat → GatewayReply) (mi : Int) :
    ∀ (k fuel : Nat) (msgs : List Message) (calls tools : Nat)
      (snaps : List (List Message)),
    (∀ i, i < k → ∃ blocks, gw (calls + i) = GatewayReply.resp (some "tool_use") blocks) →
    k ≤ fuel →
    ∃ msgs2 tools2 snaps2,
      runAux env gw mi msgs fuel calls tools snaps
        = runAux env gw mi msgs2 (fuel - k) (calls + k) tools2 snaps2 := by
  intro k
  induction k with
  | zero =>
    intro fuel msgs calls tools snaps _ _
    exact ⟨msgs, tools, snaps, by simp⟩
  | succ k ih =>
    intro fuel msgs calls tools snaps htools hk
    obtain ⟨fuel', rfl⟩ : ∃ f, fuel = f + 1 := ⟨fuel - 1, by omega⟩
    obtain ⟨blocks, hb⟩ := htools 0 (Nat.succ_pos k)
    rw [runAux_tool_step env gw mi msgs fuel' calls tools snaps blocks (by simpa using hb)]
    obtain ⟨m2, t2, s2, heq⟩ := ih fuel' (toolTurnMessages env msgs blocks) (calls + 1)
      (tools + (toolUses blocks).length) (snaps ++ [msgs])
      (fun i hi => by
        have := htools (i + 1) (by omega)
        simpa [Nat.add_assoc, Nat.add_comm 1 i] using this)
      (by omega)
    have h1 : fuel' - k = fuel' + 1 - (k + 1) := by omega
    have h2 : calls + 1 + k = calls + (k + 1) := by omega
    rw [h1, h2] at heq
    exact ⟨m2, t2, s2, heq⟩

/-! ### Tool-result bookkeeping -/

/-- One `toolResult` block per `toolUse` block, in order, carrying the
request's id: the ids of the built results are exactly the ids of the
requests, and the counts agree. -/
lemma toolResultsFor_ids (env : ToolEnv) :
    ∀ blocks : List ContentBlock,
    resultIds (toolResultsFor env blocks) = (toolUses blocks).map (fun u => u.1) ∧
    (toolResultsFor env blocks).length = (toolUses blocks).length := by
  intro blocks
  induction blocks with
  | nil => exact ⟨rfl, rfl⟩
  | cons b rest ih =>
    cases b with
    | text s => simpa [toolResultsFor, toolUses, resultIds] using ih
    | toolUse id name input => simpa [toolResultsFor, toolUses, resultIds] using ih
    | toolResult id t => simpa [toolResultsFor, toolUses, resultIds] using ih
    | other => simpa [toolResultsFor, toolUses, resultIds] using ih

/-- A turn with no `toolUse` block builds no results. -/
lemma toolResultsFor_eq_nil (env : ToolEnv) (blocks : List ContentBlock)
    (h : toolUses blocks = []) : toolResultsFor env blocks = [] := by
  have := (toolResultsFor_ids env blocks).2
  rw [h] at this
  exact List.eq_nil_of_length_eq_zero (by simpa using this)

/-! ### Conversation-shape invariants -/

/-- Appending an assistant message then a user message preserves the
user/assistant alternation pattern. -/
lemma userAssistAlt_append_two (ac : List ContentBlock) (um : Message)
    (hu : um.role = "user") :
    ∀ msgs : List Message, userAssistAlt msgs = true →
    userAssistAlt (msgs ++ [Message.mk "assistant" ac, um]) = true
  | [], h => by simp [userAssistAlt] at h
  | [m], h => by
      simp only [userAssistAlt] at h
      simp [userAssistAlt, h, hu]
  | m1 :: m2 :: rest, h => by
      simp only [userAssistAlt, Bool.and_eq_true] at h
      have := userAssistAlt_append_two ac um hu rest h.2
      simp only [List.cons_append, userAssistAlt, Bool.and_eq_true]
      exact ⟨h.1, this⟩

/-- Extending a chain that ends in `a` by a step from `a` to `b`. -/
lemma chain'_concat_concat {α : Type} {R : α → α → Prop} (l : List α) (a b : α)
    (h : List.Chain' R (l ++ [a])) (hR : R a b) :
    List.Chain' R (l ++ [a, b]) := by
  have heq : l ++ [a, b] = (l ++ [a]) ++ [b] := by simp
  rw [heq]
  refine List.Chain'.append h (List.chain'_singleton b) ?_
  intro x hx y hy
  simp only [List.head?_cons, Option.mem_def, Option.some.injEq] at hy
  subst hy
  rw [List.getLast?_concat] at hx
  simp only [Option.mem_def, Option.some.injEq] at hx
  subst hx
  exact hR

/-- If the snapshot accumulator is nonempty, the run leaves its first
entry in place. -/
lemma runAux_snapshots_head_ne (env : ToolEnv) (gw : Nat → GatewayReply) (mi : Int) :
    ∀ (fuel : Nat) (msgs : List Message) (calls tools : Nat)
      (snaps : List (List Message)), snaps ≠ [] →
    (runAux env gw mi msgs fuel calls tools snaps).snapshots.head? = snaps.head? := by
  intro fuel
  induction fuel with
  | zero => intro msgs calls tools snaps _; rfl
  | succ fuel ih =>
    intro msgs calls tools snaps hne
    obtain ⟨s0, srest, rfl⟩ : ∃ s0 srest, snaps = s0 :: srest := by
      cases snaps with
      | nil => exact absurd rfl hne
      | cons s0 srest => exact ⟨s0, srest, rfl⟩
    cases h : gw calls with
    | clientError code msg =>
      simp [runAux_client_step env gw mi msgs fuel calls tools _ code msg h]
    | resp stop content =>
      by_cases h1 : stop = some "end_turn"
      · subst h1
        simp [runAux_final_step env gw mi msgs fuel calls tools _ content h]
      · by_cases h2 : stop = some "tool_use"
        · subst h2
          rw [runAux_tool_step env gw mi msgs fuel calls tools _ content h]
          rw [ih _ _ _ _ (by simp)]
          simp
        · simp [runAux_other_step env gw mi msgs fuel calls tools _ stop content h h1 h2]

/-- With fuel available and an empty accumulator, the first snapshot
recorded is the message list at entry. -/
lemma runAux_snapshots_head_start (env : ToolEnv) (gw : Nat → GatewayReply)
    (mi : Int) (msgs : List Message) (fuel calls tools : Nat) :
    (runAux env gw mi msgs (fuel + 1) calls tools []).snapshots.head? = some msgs := by
  cases h : gw calls with
  | clientError code msg =>
    simp [runAux_client_step env gw mi msgs fuel calls tools [] code msg h]
  | resp stop content =>
    by_cases h1 : stop = some "end_turn"
    · subst h1
      simp [runAux_final_step env gw mi msgs fuel calls tools [] content h]
    · by_cases h2 : stop = some "tool_use"
      · subst h2
        rw [runAux_tool_step env gw mi msgs fuel calls tools [] content h]
        rw [runAux_snapshots_head_ne env gw mi fuel _ _ _ _ (by simp)]
        simp
      · simp [runAux_other_step env gw mi msgs fuel calls tools [] stop content h h1 h2]

/-- Main snapshot invariant: if every accumulated snapshot alternates,
the current message list alternates, the accumulated snapshots
(followed by the current list) form a chain of tool turns, and every
accumulated snapshot is a prefix of the current list, then the final
trace's snapshots all alternate, form a chain of tool turns, and are
each a prefix of the final message list. -/
lemma runAux_snapshot_inv (env : ToolEnv) (gw : Nat → GatewayReply) (mi : Int) :
    ∀ (fuel : Nat) (msgs : List Message) (calls tools : Nat)
      (snaps : List (List Message)),
    (∀ s ∈ snaps, userAssistAlt s = true) →
    userAssistAlt msgs = true →
    List.Chain' (TurnStep env) (snaps ++ [msgs]) →
    (∀ s ∈ snaps, s <+: msgs) →
    (∀ s ∈ (runAux env gw mi msgs fuel calls tools snaps).snapshots,
        userAssistAlt s = true) ∧
    List.Chain' (TurnStep env) (runAux env gw mi msgs fuel calls tools snaps).snapshots ∧
    (∀ s ∈ (runAux env gw mi msgs fuel calls tools snaps).snapshots,
        s <+: (runAux env gw mi msgs fuel calls tools snaps).messages) := by
  intro fuel
  induction fuel with
  | zero =>
    intro msgs calls tools snaps hall hm hchain hpref
    refine ⟨fun s hs => hall s hs, ?_, fun s hs => hpref s hs⟩
    exact (List.chain'_append.mp hchain).1
  | succ fuel ih =>
    intro msgs calls tools snaps hall hm hchain hpref
    have hall' : ∀ s ∈ snaps ++ [msgs], userAssistAlt s = true := by
      intro s hs
      rcases List.mem_append.mp hs with h | h
      · exact hall s h
      · simp only [List.mem_singleton] at h; subst h; exact hm
    have hpref' : ∀ s ∈ snaps ++ [msgs], s <+: msgs := by
      intro s hs
      rcases List.mem_append.mp hs with h | h
      · exact hpref s h
      · simp only [List.mem_singleton] at h; subst h; exact List.prefix_refl _
    cases h : gw calls with
    | clientError code msg =>
      rw [runAux_client_step env gw mi msgs fuel calls tools snaps code msg h]
      exact ⟨hall', hchain, hpref'⟩
    | resp stop content =>
      by_cases h1 : stop = some "end_turn"
      · subst h1
        rw [runAux_final_step env gw mi msgs fuel calls tools snaps content h]
        exact ⟨hall', hchain, hpref'⟩
      · by_cases h2 : stop = some "tool_use"
        · subst h2
          rw [runAux_tool_step env gw mi msgs fuel calls tools snaps content h]
          refine ih (toolTurnMessages env msgs content) (calls + 1)
            (tools + (toolUses content).length) (snaps ++ [msgs]) hall' ?_ ?_ ?_
          · exact userAssistAlt_append_two content
              (Message.mk "user" (toolResultsFor env content)) rfl msgs hm
          · have : snaps ++ [msgs] ++ [toolTurnMessages env msgs content]
                = snaps ++ [msgs, toolTurnMessages env msgs content] := by simp
            rw [this]
            exact chain'_concat_concat snaps msgs (toolTurnMessages env msgs content)
              hchain ⟨content, rfl⟩
          · intro s hs
            exact (hpref' s hs).trans (List.prefix_append msgs _)
        · rw [runAux_other_step env gw mi msgs fuel calls tools snaps stop content h h1 h2]
          exact ⟨hall', hchain, hpref'⟩

/-! ### Claims -/

/-- C1: `_execute_tool` fails closed.  An unknown tool name, and any
exception raised by argument extraction or by the tool body (any
`Except.error` outcome of the dispatch body), is converted to the
error dictionary carrying the exception string, never propagated; and
a `tool_use` turn — whatever its tools do — still proceeds to the next
`converse` call when budget remains. -/
theorem C1_execute_tool_fails_closed (env : ToolEnv) (tool_name : String)
    (tool_input : List (String × PyVal)) :
    (tool_name ≠ "get_weather" → tool_name ≠ "get_time" → tool_name ≠ "calculator" →
      execute_tool env tool_name tool_input =
        PyVal.vdict
          [("error", PyVal.vstr ("Unknown tool: " ++ tool_name)),
           ("tool_name", PyVal.vstr tool_name),
           ("tool_input", PyVal.vdict tool_input)]) ∧
    (∀ e, executeToolBody env tool_name tool_input = Except.error e →
      execute_tool env tool_name tool_input =
        PyVal.vdict
          [("error", PyVal.vstr e),
           ("tool_name", PyVal.vstr tool_name),
           ("tool_input", PyVal.vdict tool_input)]) ∧
    (∀ (gw : Nat → GatewayReply) (mi : Int) (msgs : List Message)
        (fuel calls tools : Nat) (snaps : List (List Message))
        (content : List ContentBlock),
      gw calls = GatewayReply.resp (some "tool_use") content →
      calls + 2 ≤ (runAux env gw mi msgs (fuel + 2) calls tools snaps).modelCalls) := by
  refine ⟨?_, ?_, ?_⟩
  · intro h1 h2 h3
    simp [execute_tool, executeToolBody, h1, h2, h3]
  · intro e he
    simp [execute_tool, he]
  · intro gw mi msgs fuel calls tools snaps content hc
    rw [runAux_tool_step env gw mi msgs (fuel + 1) calls tools snaps content hc]
    exact runAux_calls_succ_le env gw mi _ fuel (calls + 1) _ _

/-- C1 witness: unknown tool name at a concrete input, and a failing
tool turn still reaching the next call. -/
theorem C1_witness :
    execute_tool envFailing "bogus" [] =
      PyVal.vdict
        [("error", PyVal.vstr ("Unknown tool: " ++ "bogus")),
         ("tool_name", PyVal.vstr "bogus"),
         ("tool_input", PyVal.vdict [])] ∧
    0 + 2 ≤ (runAux envFailing gwAllTools 5 [] 2 0 0 []).modelCalls :=
  ⟨(C1_execute_tool_fails_closed envFailing "bogus" []).1
      (by decide) (by decide) (by decide),
   (C1_execute_tool_fails_closed envFailing "bogus" []).2.2
      gwAllTools 5 [] 0 0 0 [] [sampleToolUse] rfl⟩

/-- C2: on a `tool_use` turn the loop appends the assistant message
and one user message bundling exactly one `toolResult` per `toolUse`
block of that turn — counts equal, each result carrying the matching
`toolUseId`, in request order. -/
theorem C2_one_result_per_request (env : ToolEnv) (gw : Nat → GatewayReply)
    (mi : Int) (msgs : List Message) (fuel calls tools : Nat)
    (snaps : List (List Message)) (content : List ContentBlock)
    (h : gw calls = GatewayReply.resp (some "tool_use") content) :
    runAux env gw mi msgs (fuel + 1) calls tools snaps
      = runAux env gw mi
          (msgs ++ [Message.mk "assistant" content,
                    Message.mk "user" (toolResultsFor env content)]) fuel
          (calls + 1) (tools + (toolUses content).length) (snaps ++ [msgs]) ∧
    (toolResultsFor env content).length = (toolUses content).length ∧
    resultIds (toolResultsFor env content) = (toolUses content).map (fun u => u.1) := by
  refine ⟨?_, (toolResultsFor_ids env content).2, (toolResultsFor_ids env content).1⟩
  exact runAux_tool_step env gw mi msgs fuel calls tools snaps content h

/-- C2 witness at a concrete one-request turn. -/
theorem C2_witness :
    (toolResultsFor envOk [sampleToolUse]).length = (toolUses [sampleToolUse]).length ∧
    resultIds (toolResultsFor envOk [sampleToolUse]) = ["tu-1"] := by
  have h := C2_one_result_per_request envOk gwAllTools 5 [] 3 0 0 [] [sampleToolUse] rfl
  exact ⟨h.2.1, h.2.2.trans (by decide)⟩

/-- C3: a first reply of `end_turn` with content `[{text: X}]` makes
`run` return `X` after exactly one `converse` call, with no tool
execution and nothing appended past the seed user message. -/
theorem C3_immediate_final (env : ToolEnv) (gw : Nat → GatewayReply)
    (q X : String) (mi : Int) (hmi : 0 < mi)
    (h0 : gw 0 = GatewayReply.resp (some "end_turn") [ContentBlock.text X]) :
    (run env gw q mi).result = RunResult.returns X ∧
    (run env gw q mi).modelCalls = 1 ∧
    (run env gw q mi).toolCalls = 0 ∧
    (run env gw q mi).messages = [Message.mk "user" [ContentBlock.text q]] := by
  obtain ⟨f, hf⟩ : ∃ f, mi.toNat = f + 1 := ⟨mi.toNat - 1, by omega⟩
  unfold run
  rw [hf, runAux_final_step env gw mi _ f 0 0 [] _ h0]
  refine ⟨?_, rfl, rfl, rfl⟩
  show RunResult.returns (finalText [ContentBlock.text X]) = RunResult.returns X
  simp [finalText]

/-- C3 witness with the always-final model. -/
theorem C3_witness :
    (run envFailing gwFinal "hello" 5).result = RunResult.returns "X" ∧
    (run envFailing gwFinal "hello" 5).modelCalls = 1 ∧
    (run envFailing gwFinal "hello" 5).toolCalls = 0 ∧
    (run envFailing gwFinal "hello" 5).messages
      = [Message.mk "user" [ContentBlock.text "hello"]] :=
  C3_immediate_final envFailing gwFinal "hello" "X" 5 (by decide) rfl

/-- C4: `k` tool round-trips (k below the budget) followed by a final
answer make exactly `k + 1` `converse` calls and return the last
call's text. -/
theorem C4_k_roundtrips (env : ToolEnv) (gw : Nat → GatewayReply) (q : String)
    (k : Nat) (mi : Int) (c : List ContentBlock)
    (hk : (k : Int) < mi)
    (htools : ∀ i, i < k → ∃ blocks, gw i = GatewayReply.resp (some "tool_use") blocks)
    (hfin : gw k = GatewayReply.resp (some "end_turn") c) :
    (run env gw q mi).result = RunResult.returns (finalText c) ∧
    (run env gw q mi).modelCalls = k + 1 := by
  unfold run
  have h := runAux_tools_then_final env gw mi k mi.toNat
    [Message.mk "user" [ContentBlock.text q]] 0 0 [] c
    (by simpa using htools) (by simpa using hfin) (by omega)
  simpa using h

/-- C4 witness: one round-trip, two calls. -/
theorem C4_witness :
    (run envOk gwOneToolThenFinal "q" 5).result = RunResult.returns "done" ∧
    (run envOk gwOneToolThenFinal "q" 5).modelCalls = 2 := by
  have h := C4_k_roundtrips envOk gwOneToolThenFinal "q" 1 5 [ContentBlock.text "done"]
    (by decide)
    (fun i hi => ⟨[sampleToolUse], by
      have h0 : i = 0 := by omega
      subst h0; rfl⟩)
    rfl
  exact ⟨h.1.trans (by decide), h.2⟩

/-- C5: a model that requests tools on every reply drives `run` to
exactly `max_iterations.toNat` `converse` calls and the max-iterations
`RuntimeError` carrying the budget value. -/
theorem C5_budget_exhaustion (env : ToolEnv) (gw : Nat → GatewayReply)
    (q : String) (mi : Int)
    (halltools : ∀ i, ∃ blocks, gw i = GatewayReply.resp (some "tool_use") blocks) :
    (run env gw q mi).result
      = RunResult.raisesRuntimeError
          ("Max iterations (" ++ toString mi ++ ") exceeded") ∧
    (run env gw q mi).modelCalls = mi.toNat := by
  unfold run
  have h := runAux_all_tools env gw mi halltools mi.toNat
    [Message.mk "user" [ContentBlock.text q]] 0 0 []
  simpa using h

/-- C5 witness at the default budget 5. -/
theorem C5_witness :
    (run envFailing gwAllTools "q" 5).result
      = RunResult.raisesRuntimeError "Max iterations (5) exceeded" ∧
    (run envFailing gwAllTools "q" 5).modelCalls = 5 := by
  have h := C5_budget_exhaustion envFailing gwAllTools "q" 5
    (fun _ => ⟨[sampleToolUse], rfl⟩)
  exact ⟨h.1.trans (by decide), h.2⟩

/-- C8: a `ClientError` on the (j+1)-th `converse` call (after j tool
turns) is re-raised to the caller: the run fails with that error after
exactly `j + 1` calls — no retry, no further calls. -/
theorem C8_client_error_fails_run (env : ToolEnv) (gw : Nat → GatewayReply)
    (q : String) (j : Nat) (mi : Int) (code msg : String)
    (hj : (j : Int) < mi)
    (htools : ∀ i, i < j → ∃ blocks, gw i = GatewayReply.resp (some "tool_use") blocks)
    (herr : gw j = GatewayReply.clientError code msg) :
    (run env gw q mi).result = RunResult.raisesClientError code msg ∧
    (run env gw q mi).modelCalls = j + 1 := by
  unfold run
  obtain ⟨m2, t2, s2, heq⟩ := runAux_tools_skip env gw mi j mi.toNat
    [Message.mk "user" [ContentBlock.text q]] 0 0 []
    (by simpa using htools) (by omega)
  simp only [Nat.zero_add] at heq
  have hfuel : mi.toNat - j = (mi.toNat - j - 1) + 1 := by omega
  rw [hfuel] at heq
  rw [heq, runAux_client_step env gw mi m2 (mi.toNat - j - 1) j t2 s2 code msg herr]
  exact ⟨rfl, rfl⟩

/-- C8 witness: the first call throttles; the run raises at once. -/
theorem C8_witness :
    (run envFailing gwClientFail "q" 5).result
      = RunResult.raisesClientError "ThrottlingException" "Rate exceeded" ∧
    (run envFailing gwClientFail "q" 5).modelCalls = 1 :=
  C8_client_error_fails_run envFailing gwClientFail "q" 0 5
    "ThrottlingException" "Rate exceeded" (by decide)
    (fun i hi => absurd hi (Nat.not_lt_zero i)) rfl

/-- C10: with a non-positive iteration budget the loop body never
runs: no `converse` call, no tool execution, no message appended, and
the max-iterations `RuntimeError` is raised at once. -/
theorem C10_nonpositive_budget (env : ToolEnv) (gw : Nat → GatewayReply)
    (q : String) (mi : Int) (hmi : mi ≤ 0) :
    run env gw q mi =
      ⟨RunResult.raisesRuntimeError
          ("Max iterations (" ++ toString mi ++ ") exceeded"),
        0, 0, [Message.mk "user" [ContentBlock.text q]], []⟩ := by
  unfold run
  have h0 : mi.toNat = 0 := by omega
  rw [h0]
  rfl

/-- C10 witness at budget -3. -/
theorem C10_witness :
    (run envFailing gwAllTools "q" (-3)).result
      = RunResult.raisesRuntimeError "Max iterations (-3) exceeded" ∧
    (run envFailing gwAllTools "q" (-3)).modelCalls = 0 ∧
    (run envFailing gwAllTools "q" (-3)).toolCalls = 0 := by
  have h := C10_nonpositive_budget envFailing gwAllTools "q" (-3) (by decide)
  rw [h]
  exact ⟨by decide, rfl, rfl⟩

/-- C6 counterexample: a model that always answers `tool_use` with an
empty request list is NOT treated as a protocol violation — the run
keeps iterating, consuming the whole budget of 5 `converse` calls, and
ends in the max-iterations `RuntimeError`, not an
`UnexpectedResponse`-style failure after the first such turn. -/
theorem C6_counterexample :
    (run envFailing gwEmptyToolUse "q" 5).modelCalls = 5 ∧
    (run envFailing gwEmptyToolUse "q" 5).result
      = RunResult.raisesRuntimeError "Max iterations (5) exceeded" := by
  exact ⟨by decide, by decide⟩

/-- C6 (amended): a `tool_use` reply with zero `toolUse` blocks makes
the loop append the assistant message and an empty tool-results user
message, execute no tool, and continue to the next iteration,
consuming budget. -/
theorem C6_empty_batch_continues (env : ToolEnv) (gw : Nat → GatewayReply)
    (mi : Int) (msgs : List Message) (fuel calls tools : Nat)
    (snaps : List (List Message)) (content : List ContentBlock)
    (h : gw calls = GatewayReply.resp (some "tool_use") content)
    (hempty : toolUses content = []) :
    toolResultsFor env content = [] ∧
    runAux env gw mi msgs (fuel + 1) calls tools snaps
      = runAux env gw mi
          (msgs ++ [Message.mk "assistant" content, Message.mk "user" []])
          fuel (calls + 1) tools (snaps ++ [msgs]) := by
  have hnil := toolResultsFor_eq_nil env content hempty
  refine ⟨hnil, ?_⟩
  rw [runAux_tool_step env gw mi msgs fuel calls tools snaps content h]
  rw [hempty]
  simp [toolTurnMessages, hnil]

/-- C6 witness: one concrete empty-batch step. -/
theorem C6_witness :
    toolResultsFor envFailing [] = [] ∧
    runAux envFailing gwEmptyToolUse 5
        [Message.mk "user" [ContentBlock.text "q"]] 5 0 0 []
      = runAux envFailing gwEmptyToolUse 5
          ([Message.mk "user" [ContentBlock.text "q"]] ++
            [Message.mk "assistant" [], Message.mk "user" []])
          4 1 0 [[Message.mk "user" [ContentBlock.text "q"]]] :=
  C6_empty_batch_continues envFailing gwEmptyToolUse 5
    [Message.mk "user" [ContentBlock.text "q"]] 4 0 0 [] [] rfl rfl

/-- C7 counterexample: an unrecognized stop reason is NOT surfaced as
an error outcome distinct from a model-authored final answer — the run
returns normally with the formatted string, and a model that authors
exactly that text as its final answer produces the identical outcome. -/
theorem C7_counterexample :
    (run envFailing gwUnexpectedStop "q" 5).result
      = RunResult.returns "Unexpected stop reason: max_tokens" ∧
    (run envFailing gwMimicUnexpected "q" 5).result
      = RunResult.returns "Unexpected stop reason: max_tokens" := by
  exact ⟨by decide, by decide⟩

/-- C7 (amended): a reply whose stop reason is neither `end_turn` nor
`tool_use` (after j tool turns within budget) makes `run` end by
returning the string `Unexpected stop reason: {stop_reason}` through
the normal return channel — the same channel as a final answer — after
exactly `j + 1` calls, with no further model call. -/
theorem C7_unexpected_stop_returns_string (env : ToolEnv) (gw : Nat → GatewayReply)
    (q : String) (j : Nat) (mi : Int) (stop : Option String)
    (content : List ContentBlock)
    (hj : (j : Int) < mi)
    (htools : ∀ i, i < j → ∃ blocks, gw i = GatewayReply.resp (some "tool_use") blocks)
    (hstop : gw j = GatewayReply.resp stop content)
    (h1 : stop ≠ some "end_turn") (h2 : stop ≠ some "tool_use") :
    (run env gw q mi).result
      = RunResult.returns ("Unexpected stop reason: " ++ stopReasonStr stop) ∧
    (run env gw q mi).modelCalls = j + 1 := by
  unfold run
  obtain ⟨m2, t2, s2, heq⟩ := runAux_tools_skip env gw mi j mi.toNat
    [Message.mk "user" [ContentBlock.text q]] 0 0 []
    (by simpa using htools) (by omega)
  simp only [Nat.zero_add] at heq
  have hfuel : mi.toNat - j = (mi.toNat - j - 1) + 1 := by omega
  rw [hfuel] at heq
  rw [heq, runAux_other_step env gw mi m2 (mi.toNat - j - 1) j t2 s2 stop content
    hstop h1 h2]
  exact ⟨rfl, rfl⟩

/-- C7 witness: stop reason `max_tokens` on the first call. -/
theorem C7_witness :
    (run envFailing gwUnexpectedStop "hello" 5).result
      = RunResult.returns
          ("Unexpected stop reason: " ++ stopReasonStr (some "max_tokens")) ∧
    (run envFailing gwUnexpectedStop "hello" 5).modelCalls = 1 :=
  C7_unexpected_stop_returns_string envFailing gwUnexpectedStop "hello" 0 5
    (some "max_tokens") [ContentBlock.text "partial"] (by decide)
    (fun i hi => absurd hi (Nat.not_lt_zero i)) rfl (by decide) (by decide)

/-- C9: in every run, the first snapshot sent to the model is the
single seed user message; every snapshot alternates
user, assistant, user, ..., user; consecutive snapshots differ by
exactly the assistant message carrying the requests followed by the
user message bundling that turn's results; and every snapshot is a
prefix of the final conversation (messages are never removed or
modified). -/
theorem C9_conversation_invariants (env : ToolEnv) (gw : Nat → GatewayReply)
    (q : String) (mi : Int) :
    (0 < mi →
      (run env gw q mi).snapshots.head?
        = some [Message.mk "user" [ContentBlock.text q]]) ∧
    (∀ s ∈ (run env gw q mi).snapshots, userAssistAlt s = true) ∧
    List.Chain' (TurnStep env) (run env gw q mi).snapshots ∧
    (∀ s ∈ (run env gw q mi).snapshots, s <+: (run env gw q mi).messages) := by
  unfold run
  have hinv := runAux_snapshot_inv env gw mi mi.toNat
    [Message.mk "user" [ContentBlock.text q]] 0 0 []
    (by intro s hs; simp at hs)
    (by rfl)
    (by simp)
    (by intro s hs; simp at hs)
  refine ⟨?_, hinv.1, hinv.2.1, hinv.2.2⟩
  intro hmi
  obtain ⟨f, hf⟩ : ∃ f, mi.toNat = f + 1 := ⟨mi.toNat - 1, by omega⟩
  rw [hf]
  exact runAux_snapshots_head_start env gw mi _ f 0 0

/-- C9 witness: first snapshot of a concrete run. -/
theorem C9_witness :
    (run envOk gwOneToolThenFinal "q" 5).snapshots.head?
      = some [Message.mk "user" [ContentBlock.text "q"]] :=
  (C9_conversation_invariants envOk gwOneToolThenFinal "q" 5).1 (by decide)
